import Mathlib

/-!
Verification of the Molang expression-language engine (lexer, parser,
statement splitter, tree-walking evaluator) against its specification.

The Rust sources are shallowly embedded:
* f32 numbers are modelled as exact unreduced rationals (structure F32);
  none of the properties checked here depends on rounding, NaN or infinity;
* HashMap String V is modelled as an association list without duplicate
  keys (getV / insertV);
* Rc-shared external objects live in an explicit heap indexed by Nat;
  the dyn External trait objects are modelled by a concrete capability
  record (ExtObj) implementing get/set/call_function/index_get/index_set;
* recursive functions whose termination is not structural in Rust
  (the lexer loop, treeify, the evaluator) take an explicit fuel
  argument and recurse structurally on it, so that the kernel can
  evaluate them; fuel exhaustion is reported through dedicated error
  constructors (outOfFuel) that the original code cannot produce, so a
  theorem about a genuine error or result is never a fuel artifact;
* Rust panics (Vec index out of bounds, unwrap of a compile error inside
  a brace block) are modelled by dedicated panicked error constructors;
* each mutually recursive group of the source is embedded as one
  fuelled Lean function (the lexer loop with its state handlers inlined;
  the evaluator over a sum EJob of its four job kinds), with wrappers
  restoring the source names.
-/

/-- Exact-arithmetic model of Rust f32: an unreduced fraction num/den with
den positive by construction.  All numbers occurring in the verified
programs are small integers, for which f32 arithmetic is exact. -/
structure F32 where
  num : Int
  den : Int
deriving DecidableEq, Repr

def F32.ofInt (n : Int) : F32 := ⟨n, 1⟩

def F32.add (a b : F32) : F32 := ⟨a.num * b.den + b.num * a.den, a.den * b.den⟩

def F32.sub (a b : F32) : F32 := ⟨a.num * b.den - b.num * a.den, a.den * b.den⟩

def F32.mul (a b : F32) : F32 := ⟨a.num * b.num, a.den * b.den⟩

/-- Division a/b as exact rationals (f32 division by zero yielding inf or
NaN is outside this model; no verified property divides). -/
def F32.div (a b : F32) : F32 := ⟨a.num * b.den, a.den * b.num⟩

/-- Numeric equality of two modelled f32 values (cross multiplication). -/
def F32.numEq (a b : F32) : Bool := a.num * b.den == b.num * a.den

/-- Association-list model of HashMap lookup (HashMap::get). -/
def getV {α : Type} : List (String × α) → String → Option α
  | [], _ => none
  | (k, v) :: r, key => if k == key then some v else getV r key

/-- Association-list model of HashMap insertion (HashMap::insert). -/
def insertV {α : Type} : List (String × α) → String → α → List (String × α)
  | [], k, v => [(k, v)]
  | (k0, v0) :: r, k, v =>
    if k0 == k then (k0, v) :: r else (k0, v0) :: insertV r k v

/-- data.rs Operator, plus the Return operator referenced by the lexer
(tokeniser/mod.rs emits Operator::Return for the identifier return). -/
inductive Operator where
  | NullishCoalescing
  | Conditional
  | Colon
  | Divide
  | Multiply
  | Add
  | Subtract
  | Not
  | Assignment
  | Equality
  | Return
deriving DecidableEq, Repr

/-- data.rs Operator::precidence (source spelling kept).  The Return
entry is Modelled from the spec: data.rs has no precedence entry for the
return operator; spec section 9 fixes it as a prefix keyword-operator
with precedence below every binary operator (lowest binary is 2). -/
def Operator.precidence : Operator → Nat
  | .Add | .Subtract => 11
  | .Multiply | .Divide => 12
  | .NullishCoalescing => 3
  | .Conditional | .Colon | .Assignment => 2
  | .Not => 14
  | .Equality => 8
  | .Return => 1

/-- value.rs Function: the wrapper struct holding an Rc to the shared
callable.  addr models the memory address of this particular Function
struct value (what std::ptr::eq in PartialEq for Function compares);
rcId identifies the underlying shared Rc callable. -/
structure Function where
  addr : Nat
  rcId : Nat
deriving DecidableEq, Repr

/-- PartialEq for Function (value.rs lines 97-101): std::ptr::eq(self,
other) compares the addresses of the two Function structs themselves,
not the shared callables they hold. -/
def functionEq (a b : Function) : Bool := a.addr == b.addr

/-- Clone for Function (derived): the Rc field is cloned, so the copy
shares the callable (same rcId) but is a new struct value at a fresh
address. -/
def cloneFunction (f : Function) (freshAddr : Nat) : Function :=
  ⟨freshAddr, f.rcId⟩

/-- Key type of the string maps (the Value.String constructor shadows
the String type inside the Value declaration). -/
abbrev StrKey : Type := String

/-- value.rs Value.  External holds an index into the explicit heap of
shared external objects (models Rc of RefCell of dyn External). -/
inductive Value where
  | Number (n : F32)
  | String (s : StrKey)
  | Struct (fields : List (StrKey × Value))
  | External (id : Nat)
  | Function (f : Function)
  | Null

/-- Rough model of the Rust Debug formatting of a Value, used only as
the payload of TypeError and BadAccess messages. -/
def valueDebugStr : Value → StrKey
  | .Number n => "Number(" ++ toString n.num ++ "/" ++ toString n.den ++ ")"
  | .String s => "String(\"" ++ s ++ "\")"
  | .Struct _ => "Struct(..)"
  | .External _ => "External(..)"
  | .Function _ => "Function..."
  | .Null => "Null"

/-- value.rs molang_eq, fuelled (fuel bounds the struct nesting depth).
Number/String/Null compare by value; Struct follows HashMap PartialEq
(equal sizes and every key of the left map bound in the right map to an
equal value); External compares by identity of the shared object (the
default equality of spec section 4.5); Function uses functionEq
(pointer equality of the wrapper structs). -/
def molangEqF : Nat → Value → Value → Bool
  | 0, _, _ => false
  | _ + 1, .Number a, b => match b with
    | .Number b => F32.numEq a b
    | _ => false
  | _ + 1, .String a, b => match b with
    | .String b => a == b
    | _ => false
  | n + 1, .Struct a, b => match b with
    | .Struct b =>
      a.length == b.length &&
        a.all fun p => match getV b p.1 with
          | some w => molangEqF n p.2 w
          | none => false
    | _ => false
  | _ + 1, .External a, b => match b with
    | .External b => a == b
    | _ => false
  | _ + 1, .Function a, b => match b with
    | .Function b => functionEq a b
    | _ => false
  | _ + 1, .Null, b => match b with
    | .Null => true
    | _ => false

/-- Depth of a Value (struct nesting), used as fuel for molangEq. -/
def valueDepth : Value → Nat
  | .Struct fs => 1 + (fs.attach.map (fun p => valueDepth p.1.2)).foldr Nat.max 0
  | _ => 1
decreasing_by
  have h1 := List.sizeOf_lt_of_mem p.2
  obtain ⟨⟨k, v⟩, hp⟩ := p
  simp_all
  omega

/-- value.rs molang_eq (PartialEq for Value); the depth bound keeps the
fuel from running out. -/
def molangEq (a b : Value) : Bool := molangEqF (valueDepth a + 1) a b

/- parser.rs Expr / Instruction / AccessExpr.  The Return constructor
is matched by interpreter.rs (Instruction::Return) and constructed by
the blockiser tests; its declaration is missing from the parser.rs
snapshot. -/
mutual
inductive Expr where
  | Literal (v : Value)
  | Derived (i : Instruction)

inductive Instruction where
  | Add (l r : Expr)
  | Subtract (l r : Expr)
  | Multiply (l r : Expr)
  | Divide (l r : Expr)
  | Access (accesses : List AccessExpr)
  | Conditional (l r : Expr)
  | Colon (l r : Expr)
  | NullishCoalescing (l r : Expr)
  | Not (e : Expr)
  | Equality (l r : Expr)
  | Assignment (l r : Expr)
  | Return (e : Expr)

inductive AccessExpr where
  | Name (s : String)
  | Index (e : Expr)
  | Call (args : List Expr)
end

/-- blockiser.rs Block. -/
structure Block where
  multiple : Bool
  statements : List Expr

/- tokeniser/mod.rs Token and Access. -/
mutual
inductive Token where
  | Number (n : F32)
  | Operator (op : Operator)
  | OpenBracket
  | CloseBracket
  | Access (accesses : List Access)
  | Comma
  | Semicolon
  | Block (b : Block)

inductive Access where
  | Name (s : String)
  | Index (ts : List Token)
  | Call (ts : List Token)
end

/-- lib.rs CompileError (plus the fuel artifact of this embedding). -/
inductive TokeniseError where
  | Expectation (found expected : String)
  | panicked
  | outOfFuel
deriving DecidableEq, Repr

inductive CompileError where
  | TokensBeforePrefixOperator
  | IncompleteExpression
  | TokeniseError (e : TokeniseError)
  | outOfFuel
deriving DecidableEq, Repr

mutual
/-- Size of a token, counting nested sub-token lists, used to compute a
sufficient fuel for treeify (its recursion strictly decreases this). -/
def sizeT : Token → Nat
  | .Access accs => 1 + sizeAL accs
  | _ => 1

/-- Size of an access step. -/
def sizeA : Access → Nat
  | .Name _ => 1
  | .Index ts => 1 + sizeTL ts
  | .Call ts => 1 + sizeTL ts

/-- Size of a token list. -/
def sizeTL : List Token → Nat
  | [] => 0
  | t :: r => sizeT t + sizeTL r

/-- Size of an access list. -/
def sizeAL : List Access → Nat
  | [] => 0
  | a :: r => sizeA a + sizeAL r
end

/-- parser.rs treeify scan (lines 40-59): walk the tokens tracking
bracket depth and keep the depth-zero operator with the lowest
precedence; on ties the earlier operator is kept (the replacement test
is strict). -/
def scanOps : List Token → Nat → Int → Option (Nat × Operator) → Option (Nat × Operator)
  | [], _, _, best => best
  | t :: rest, i, depth, best =>
    match t with
    | .OpenBracket => scanOps rest (i + 1) (depth + 1) best
    | .CloseBracket => scanOps rest (i + 1) (depth - 1) best
    | .Operator op =>
      if depth == 0 then
        match best with
        | some (j, bop) =>
          if bop.precidence > op.precidence then
            scanOps rest (i + 1) depth (some (i, op))
          else
            scanOps rest (i + 1) depth (some (j, bop))
        | none => scanOps rest (i + 1) depth (some (i, op))
      else scanOps rest (i + 1) depth best
    | _ => scanOps rest (i + 1) depth best

/-- The lowest-precedence depth-zero operator of a token slice, with its
index (parser.rs lowest_precidence_operator_maybe). -/
def findLowest (tokens : List Token) : Option (Nat × Operator) :=
  scanOps tokens 0 0 none

/-- parser.rs comma_split helper loop: split on every Comma token. -/
def splitCommaGo : List Token → List Token → List (List Token)
  | cur, [] => [cur.reverse]
  | cur, .Comma :: rest => cur.reverse :: splitCommaGo [] rest
  | cur, t :: rest => splitCommaGo (t :: cur) rest

/-- parser.rs comma_split (lines 112-132): split the tokens on every
Comma; a trailing empty slice is dropped. -/
def commaSplit (tokens : List Token) : List (List Token) :=
  let ps := splitCommaGo [] tokens
  match ps.getLast? with
  | some [] => ps.dropLast
  | _ => ps

/-- parser.rs slice pattern strip: one layer of enclosing brackets is
removed when the slice starts with OpenBracket and ends with
CloseBracket (the two brackets are not required to match). -/
def stripBrackets (tokens : List Token) : List Token :=
  match tokens with
  | .OpenBracket :: rest =>
    match rest.getLast? with
    | some .CloseBracket => rest.dropLast
    | _ => tokens
  | _ => tokens

/-- parser.rs treeify, fuelled.  Strip one bracket layer, split at the
lowest-precedence depth-zero operator (leftmost on ties) and recurse;
otherwise the slice must be a single Number or Access token, an Access
token expanding to a chain whose Call arguments are the comma slices
parsed in order.  The Operator.Return arm is Modelled from the spec:
parser.rs has no rule for the return operator; spec section 9 fixes it
as a prefix keyword-operator treated exactly like logical not. -/
def treeifyF : Nat → List Token → Except CompileError Expr
  | 0, _ => .error .outOfFuel
  | n + 1, tokens0 =>
    let tokens := stripBrackets tokens0
    match findLowest tokens with
    | some (i, op) =>
      let left := tokens.take i
      let right := tokens.drop (i + 1)
      match op with
      | .Not =>
        if left.isEmpty then
          match treeifyF n right with
          | .ok r => .ok (.Derived (.Not r))
          | .error e => .error e
        else .error .TokensBeforePrefixOperator
      | .Return =>
        if left.isEmpty then
          match treeifyF n right with
          | .ok r => .ok (.Derived (.Return r))
          | .error e => .error e
        else .error .TokensBeforePrefixOperator
      | .Equality =>
        match treeifyF n left with
        | .error e => .error e
        | .ok l =>
          match treeifyF n right with
          | .error e => .error e
          | .ok r => .ok (.Derived (.Equality l r))
      | .Assignment =>
        match treeifyF n left with
        | .error e => .error e
        | .ok l =>
          match treeifyF n right with
          | .error e => .error e
          | .ok r => .ok (.Derived (.Assignment l r))
      | .Add =>
        match treeifyF n left with
        | .error e => .error e
        | .ok l =>
          match treeifyF n right with
          | .error e => .error e
          | .ok r => .ok (.Derived (.Add l r))
      | .Subtract =>
        match treeifyF n left with
        | .error e => .error e
        | .ok l =>
          match treeifyF n right with
          | .error e => .error e
          | .ok r => .ok (.Derived (.Subtract l r))
      | .Multiply =>
        match treeifyF n left with
        | .error e => .error e
        | .ok l =>
          match treeifyF n right with
          | .error e => .error e
          | .ok r => .ok (.Derived (.Multiply l r))
      | .Divide =>
        match treeifyF n left with
        | .error e => .error e
        | .ok l =>
          match treeifyF n right with
          | .error e => .error e
          | .ok r => .ok (.Derived (.Divide l r))
      | .Conditional =>
        match treeifyF n left with
        | .error e => .error e
        | .ok l =>
          match treeifyF n right with
          | .error e => .error e
          | .ok r => .ok (.Derived (.Conditional l r))
      | .Colon =>
        match treeifyF n left with
        | .error e => .error e
        | .ok l =>
          match treeifyF n right with
          | .error e => .error e
          | .ok r => .ok (.Derived (.Colon l r))
      | .NullishCoalescing =>
        match treeifyF n left with
        | .error e => .error e
        | .ok l =>
          match treeifyF n right with
          | .error e => .error e
          | .ok r => .ok (.Derived (.NullishCoalescing l r))
    | none =>
      match tokens with
      | [.Number x] => .ok (.Literal (.Number x))
      | [.Access accs] =>
        match accs.mapM (fun a =>
          (match a with
          | Access.Name s => .ok (AccessExpr.Name s)
          | Access.Index ts =>
            match treeifyF n ts with
            | .ok e => .ok (AccessExpr.Index e)
            | .error er => .error er
          | Access.Call ts =>
            match (commaSplit ts).mapM
                (fun seg => (treeifyF n seg : Except CompileError Expr)) with
            | .ok args => .ok (AccessExpr.Call args)
            | .error er => .error er : Except CompileError AccessExpr)) with
        | .ok steps => .ok (.Derived (.Access steps))
        | .error e => .error e
      | _ => .error .IncompleteExpression

/-- parser.rs treeify with fuel ample for its recursion (every
recursive call strictly decreases the total token size). -/
def treeify (tokens : List Token) : Except CompileError Expr :=
  treeifyF (2 * sizeTL tokens + 8) tokens

/-- blockiser.rs split loop: segments before each Semicolon, plus the
trailing slice after the last Semicolon. -/
def splitSemiGo : List Token → List Token → List (List Token) × List Token
  | cur, [] => ([], cur.reverse)
  | cur, .Semicolon :: rest =>
    let r := splitSemiGo [] rest
    (cur.reverse :: r.1, r.2)
  | cur, t :: rest => splitSemiGo (t :: cur) rest

/-- blockiser.rs statement loop: parse each slice found before a
Semicolon, in order, stopping at the first parse error. -/
def treeifySegs : List (List Token) → Except CompileError (List Expr)
  | [] => .ok []
  | s :: rest =>
    match treeify s with
    | .error e => .error e
    | .ok e =>
      match treeifySegs rest with
      | .error er => .error er
      | .ok es => .ok (e :: es)

/-- blockiser.rs blockise (lines 9-37): parse the slice before every
Semicolon, then a non-empty trailing slice; multiple is set exactly
when a Semicolon was seen; a not-multiple block re-parses the whole
token list as its single statement. -/
def blockise (tokens : List Token) : Except CompileError Block :=
  let parts := splitSemiGo [] tokens
  let segs := parts.1
  let tail := parts.2
  let multiple := !segs.isEmpty
  match treeifySegs segs with
  | .error e => .error e
  | .ok stmts0 =>
    match (if tail.isEmpty then .ok stmts0 else
      match treeify tail with
      | .ok e => .ok (stmts0 ++ [e])
      | .error er => .error er : Except CompileError (List Expr)) with
    | .error e => .error e
    | .ok stmts1 =>
      if multiple then .ok ⟨true, stmts1⟩
      else
        match treeify tokens with
        | .ok e => .ok ⟨false, [e]⟩
        | .error e => .error e

/-- state.rs SequenceAction. -/
inductive SeqAction where
  | Advance
  | Done
  | Hold
deriving DecidableEq, Repr

/-- Digits of an accumulated number string to a natural number. -/
def digitsToNat (l : List Char) : Nat :=
  l.foldl (fun a c => a * 10 + (c.toNat - 48)) 0

/-- NumberState string parse (string.parse::<f32>() on a string of
digits with at most one point; underscores were never pushed). -/
def parseNumber (s : String) : F32 :=
  let l := s.toList
  let intPart := l.takeWhile (fun c => !(c == '.'))
  let rest := l.dropWhile (fun c => !(c == '.'))
  match rest with
  | [] => ⟨(digitsToNat intPart : Int), 1⟩
  | _ :: frac =>
    ⟨(digitsToNat intPart * 10 ^ frac.length + digitsToNat frac : Int),
      (10 ^ frac.length : Int)⟩

/-- tokeniser/mod.rs inner state machine for an access chain
(IdentifierState / AccessState / BracketState). -/
inductive AccState where
  | IdentifierState (identifier : String)
  | AccessState
  | BracketState (call : Bool) (inner : String) (openBrackets : Nat)

/-- tokeniser/mod.rs outer lexer states.  DoubleState holds the two
ready result tokens (the Options of the source are always Some until
taken). -/
inductive LexState where
  | NormalState
  | NumberState (point : Bool) (s : String)
  | AccessTokenState (inner : AccState) (accesses : List Access)
  | BlockState (chars : String) (opened : Nat)
  | DoubleState (target : Char) (single : Token) (double : Token)

/-- tokeniser/mod.rs tokenise loop together with the State::handle
implementations of every lexer state (one fuelled function because the
bracket and brace states re-enter tokenise on their captured
sub-strings).  Each iteration feeds the head character (None at end of
input) to the current state, collects the emitted token, consumes the
character on Advance and stops on Done.  Character classes use the
ASCII approximations of the Unicode Rust predicates (all verified
inputs are ASCII). -/
def tokLoop : Nat → LexState → List Char → Except TokeniseError (List Token)
  | 0, _, _ => .error .outOfFuel
  | n + 1, st, cs =>
    let c := cs.head?
    let handled : Except TokeniseError (Option Token × LexState × SeqAction) :=
      match st with
      | .NormalState =>
        match c with
        | some ch =>
          if ch.isDigit then .ok (none, .NumberState false "", .Hold)
          else if ch.isAlpha then
            .ok (none, .AccessTokenState (.IdentifierState "") [], .Hold)
          else if ch.isWhitespace then .ok (none, .NormalState, .Advance)
          else if ch == ',' then .ok (some .Comma, .NormalState, .Advance)
          else if ch == '*' then .ok (some (.Operator .Multiply), .NormalState, .Advance)
          else if ch == '/' then .ok (some (.Operator .Divide), .NormalState, .Advance)
          else if ch == '+' then .ok (some (.Operator .Add), .NormalState, .Advance)
          else if ch == ':' then .ok (some (.Operator .Colon), .NormalState, .Advance)
          else if ch == '-' then .ok (some (.Operator .Subtract), .NormalState, .Advance)
          else if ch == '!' then .ok (some (.Operator .Not), .NormalState, .Advance)
          else if ch == ';' then .ok (some .Semicolon, .NormalState, .Advance)
          else if ch == '(' then .ok (some .OpenBracket, .NormalState, .Advance)
          else if ch == ')' then .ok (some .CloseBracket, .NormalState, .Advance)
          else if ch == '?' then
            .ok (none, .DoubleState '?' (.Operator .Conditional)
              (.Operator .NullishCoalescing), .Advance)
          else if ch == '=' then
            .ok (none, .DoubleState '=' (.Operator .Assignment)
              (.Operator .Equality), .Advance)
          else if ch == '{' then .ok (none, .BlockState "" 0, .Advance)
          else .error (.Expectation (String.singleton ch) "anything else")
        | none => .ok (none, .NormalState, .Done)
      | .NumberState point s =>
        match c with
        | some ch =>
          if ch.isDigit then .ok (none, .NumberState point (s.push ch), .Advance)
          else if ch == '.' then
            if point then .error (.Expectation "." "a digit")
            else .ok (none, .NumberState true (s.push '.'), .Advance)
          else if ch == '_' then .ok (none, .NumberState point s, .Advance)
          else .ok (some (.Number (parseNumber s)), .NormalState, .Hold)
        | none => .ok (some (.Number (parseNumber s)), .NumberState point s, .Done)
      | .AccessTokenState inner accs =>
        let accRes : Except TokeniseError (Option Access × AccState × SeqAction) :=
          match inner with
          | .IdentifierState id =>
            match c with
            | some ch =>
              if ch.isAlphanum || ch == '_' then
                .ok (none, .IdentifierState (id.push ch), .Advance)
              else .ok (some (.Name id), .AccessState, .Hold)
            | none => .ok (some (.Name id), .AccessState, .Hold)
          | .AccessState =>
            match c with
            | some ch =>
              if ch.isWhitespace then .ok (none, .AccessState, .Advance)
              else if ch == '.' then .ok (none, .IdentifierState "", .Advance)
              else if ch == '(' then .ok (none, .BracketState true "" 0, .Advance)
              else if ch == '[' then .ok (none, .BracketState false "" 0, .Advance)
              else .ok (none, .AccessState, .Done)
            | none => .ok (none, .AccessState, .Done)
          | .BracketState call innerS ob =>
            let openC := if call then '(' else '['
            let closeC := if call then ')' else ']'
            match c with
            | some ch =>
              if ch == openC then
                .ok (none, .BracketState call (innerS.push ch) (ob + 1), .Advance)
              else if ch == closeC && ob != 0 then
                .ok (none, .BracketState call (innerS.push ch) (ob - 1), .Advance)
              else if ch == closeC then
                match tokLoop n .NormalState innerS.toList with
                | .error e => .error e
                | .ok toks =>
                  .ok (some (if call then .Call toks else .Index toks),
                    .AccessState, .Advance)
              else .ok (none, .BracketState call (innerS.push ch) ob, .Advance)
            | none => .error (.Expectation "EOF" ")")
        match accRes with
        | .error e => .error e
        | .ok (acc?, inner2, action) =>
          let accs2 := match acc? with
            | some a => accs ++ [a]
            | none => accs
          match action with
          | .Done =>
            match accs2 with
            | .Name s :: _ =>
              if s == "return" then .ok (some (.Operator .Return), .NormalState, .Hold)
              else .ok (some (.Access accs2), .NormalState, .Hold)
            | _ :: _ => .ok (some (.Access accs2), .NormalState, .Hold)
            | [] => .error .panicked
          | .Advance => .ok (none, .AccessTokenState inner2 accs2, .Advance)
          | .Hold => .ok (none, .AccessTokenState inner2 accs2, .Hold)
      | .BlockState chars opened =>
        match c with
        | some ch =>
          if ch == '}' then
            if opened == 0 then
              match tokLoop n .NormalState chars.toList with
              | .error e => .error e
              | .ok toks =>
                match blockise toks with
                | .ok b => .ok (some (.Block b), .NormalState, .Advance)
                | .error _ => .error .panicked
            else .ok (none, .BlockState (chars.push '}') (opened - 1), .Advance)
          else if ch == '{' then
            .ok (none, .BlockState (chars.push '{') (opened + 1), .Advance)
          else .ok (none, .BlockState (chars.push ch) opened, .Advance)
        | none => .error (.Expectation "EOF" (String.singleton '}'))
      | .DoubleState target single double =>
        match c with
        | some ch =>
          if ch == target then .ok (some double, .NormalState, .Advance)
          else .ok (some single, .NormalState, .Hold)
        | none => .ok (some single, .NormalState, .Hold)
    match handled with
    | .error e => .error e
    | .ok (tok?, st2, action) =>
      match action with
      | .Done => .ok tok?.toList
      | .Advance =>
        match tokLoop n st2 cs.tail with
        | .error e => .error e
        | .ok rest => .ok (tok?.toList ++ rest)
      | .Hold =>
        match tokLoop n st2 cs with
        | .error e => .error e
        | .ok rest => .ok (tok?.toList ++ rest)

/-- Fuel ample for the lexer loop on input s (the loop advances at
least every third step and nested sub-lexes run on shorter strings). -/
def tokenFuel (s : String) : Nat := 16 * (s.length + 2) * (s.length + 2)

/-- tokeniser/mod.rs tokenise. -/
def tokenise (s : String) : Except TokeniseError (List Token) :=
  tokLoop (tokenFuel s) .NormalState s.toList

/-- lib.rs compile: tokenise then blockise. -/
def compile (s : String) : Except CompileError Block :=
  match tokenise s with
  | .error te => .error (.TokeniseError te)
  | .ok tokens => blockise tokens

/-- interpreter.rs MolangError, plus the fuel and panic artifacts of
this embedding (outOfFuel / panicked are unreachable for the runs
verified here). -/
inductive MolangError where
  | FunctionNotFound (s : String)
  | FunctionError (s : String)
  | VariableNotFound (s : String)
  | SyntaxError (s : String)
  | NotAssignable (s : String)
  | TypeError (expected got : String)
  | BadAccess (op what : String)
  | outOfFuel
  | panicked (s : String)
deriving DecidableEq, Repr

/-- Concrete model of a host object behind the dyn External trait: a
property store and an indexable item list implementing the capability
interface of spec section 4.5. -/
structure ExtObj where
  props : List (StrKey × Value)
  items : List Value

/-- External::get — missing property returns Null. -/
def ExtObj.get (o : ExtObj) (p : String) : Value :=
  (getV o.props p).getD .Null

/-- External::set — the model object accepts every property write. -/
def ExtObj.set (o : ExtObj) (p : String) (v : Value) : Except MolangError ExtObj :=
  .ok { o with props := insertV o.props p v }

/-- External::call_function — the model object has no methods. -/
def ExtObj.callFunction (_o : ExtObj) (f : String) (_ : List Value) :
    Except MolangError (Value × ExtObj) :=
  .error (.FunctionNotFound f)

/-- External::index_get on the model object. -/
def ExtObj.indexGet (o : ExtObj) (i : Value) : Except MolangError Value :=
  match i with
  | .Number n => .ok ((o.items.get? n.num.toNat).getD .Null)
  | v => .error (.TypeError "Number" (valueDebugStr v))

/-- External::index_set on the model object. -/
def ExtObj.indexSet (o : ExtObj) (i : Value) (v : Value) :
    Except MolangError ExtObj :=
  match i with
  | .Number n => .ok { o with items := o.items.set n.num.toNat v }
  | w => .error (.TypeError "Number" (valueDebugStr w))

/-- The heap of Rc-shared external objects. -/
def heapGet (h : List ExtObj) (id : Nat) : ExtObj :=
  (h.get? id).getD ⟨[], []⟩

def heapSet (h : List ExtObj) (id : Nat) (o : ExtObj) : List ExtObj :=
  h.set id o

/-- The read-only evaluation environment: constants, aliases and the
table of shared host callables (indexed by the rcId of a Function
value; host callables are modelled as pure). -/
structure Env where
  constants : List (StrKey × Value)
  aliases : List (StrKey × StrKey)
  fns : Nat → List Value → Except MolangError Value

/-- The mutable evaluation state: the variables map and the heap of
shared external objects. -/
structure St where
  vars : List (StrKey × Value)
  heap : List ExtObj

/-- The raw *mut Value write target of the assignment walk
(interpreter.rs lines 214-278): the initial scratch Null, a path into a
variables entry, or a detached temporary.  A temporary models the
result of taking a mutable reference to the Value returned by
External::get / index_get (interpreter.rs lines 253 and 263): the
referent dies at the end of the statement, so later writes through it
never reach the external object. -/
inductive Loc where
  | initial
  | var (name : String) (path : List String)
  | temp (v : Value) (path : List String)

/-- Read a nested struct path. -/
def getPath : Value → List String → Value
  | v, [] => v
  | .Struct fs, k :: ks => getPath ((getV fs k).getD .Null) ks
  | _, _ :: _ => .Null

/-- Write a nested struct path (total; the walk only produces paths
through Struct values). -/
def setPath : Value → List String → Value → Value
  | _, [], w => w
  | .Struct fs, k :: ks, w =>
    .Struct (insertV fs k (setPath ((getV fs k).getD .Null) ks w))
  | v, _ :: _, _ => v

/-- Dereference a Loc. -/
def locRead (st : St) : Loc → Value
  | .initial => .Null
  | .var n path => getPath ((getV st.vars n).getD .Null) path
  | .temp v path => getPath v path

/-- Store through a Loc after the walk: a write through a detached
temporary (or the initial scratch slot) is lost. -/
def locWrite (st : St) (loc : Loc) (v : Value) : St :=
  match loc with
  | .initial => st
  | .var n path =>
    { st with vars := insertV st.vars n (setPath ((getV st.vars n).getD .Null) path v) }
  | .temp _ _ => st

/-- Store through a Loc during the walk (struct auto-vivification): a
temporary is still the live write target inside the walk, so its
contents are updated in place. -/
def locStore (st : St) (loc : Loc) (v : Value) : St × Loc :=
  match loc with
  | .initial => (st, .initial)
  | .var n path =>
    ({ st with vars := insertV st.vars n (setPath ((getV st.vars n).getD .Null) path v) },
      .var n path)
  | .temp t path => (st, .temp (setPath t path v) path)

/-- Extend a Loc by one struct field. -/
def locExtend : Loc → String → Loc
  | .initial, _ => .initial
  | .var n path, k => .var n (path ++ [k])
  | .temp v path, k => .temp v (path ++ [k])

/-- interpreter.rs TypeError check for numeric operands. -/
def getNum (v : Value) : Except MolangError F32 :=
  match v with
  | .Number n => .ok n
  | a => .error (.TypeError "Number" (valueDebugStr a))

/-- Debug formatting of expressions and access steps is abstracted (it
only feeds NotAssignable message payloads). -/
def exprDebug (_ : Expr) : String := "<expr>"

def accessDebug : AccessExpr → String
  | .Name s => "Name(" ++ s ++ ")"
  | .Index _ => "Index(..)"
  | .Call _ => "Call(..)"

/-- Result of evaluating a call-argument list: either all argument
values, or an early return bubbling out of an argument. -/
inductive ArgsOut where
  | done (vs : List Value) (st : St)
  | bubble (v : Value) (st : St)

/-- Result of the assignment target walk: a write target, or an early
return bubbling out of an index sub-expression. -/
inductive LocOut where
  | loc (l : Loc) (st : St)
  | bubble (v : Value) (st : St)

/-- The four mutually recursive evaluation jobs of interpreter.rs
run_expr, packed into one type so the evaluator is a single fuelled
function: a plain expression, the Access read walk (current value plus
pending method receiver), a call-argument loop, and the assignment
target walk. -/
inductive EJob where
  | expr (e : Expr) (st : St)
  | access (accesses : List AccessExpr) (current : Value)
      (lastExt : Option (Nat × String)) (st : St)
  | argsJob (es : List Expr) (acc : List Value) (st : St)
  | target (accesses : List AccessExpr) (loc : Loc) (st : St)

/-- Evaluator job results: a value with its early-return flag, an
argument-list result, or an assignment target. -/
inductive EOut where
  | val (v : Value) (ret : Bool) (st : St)
  | vals (o : ArgsOut)
  | tgt (o : LocOut)

/-- The run_bubble_returns macro of interpreter.rs: propagate errors
and early returns, feed a plain value to the continuation.  (The last
arm is the ill-typed-job guard of the EJob packing; it never fires.) -/
def asBubble (r : Except MolangError EOut)
    (k : Value → St → Except MolangError EOut) : Except MolangError EOut :=
  match r with
  | .error e => .error e
  | .ok (.val v true st) => .ok (.val v true st)
  | .ok (.val v false st) => k v st
  | .ok _ => .error (.panicked "ill-typed evaluation result")

/-- interpreter.rs run_expr (lines 63-360) together with its inner
loops, fuelled: expression dispatch, the Access read walk (lines
107-197), the call-argument loops, and the assignment target walk
(lines 199-283). -/
def evalF (env : Env) : Nat → EJob → Except MolangError EOut
  | _, .expr (.Literal v) st => .ok (.val v false st)
  | _, .access [] current _ st => .ok (.val current false st)
  | _, .argsJob [] acc st => .ok (.vals (.done acc st))
  | _, .target [] loc st => .ok (.tgt (.loc loc st))
  | 0, _ => .error .outOfFuel
  | n + 1, .expr (.Derived i) st =>
    match i with
    | .Add l r =>
      asBubble (evalF env n (.expr l st)) fun lv st1 =>
        match getNum lv with
        | .error e => .error e
        | .ok x =>
          asBubble (evalF env n (.expr r st1)) fun rv st2 =>
            match getNum rv with
            | .error e => .error e
            | .ok y => .ok (.val (.Number (F32.add x y)) false st2)
    | .Subtract l r =>
      asBubble (evalF env n (.expr l st)) fun lv st1 =>
        match getNum lv with
        | .error e => .error e
        | .ok x =>
          asBubble (evalF env n (.expr r st1)) fun rv st2 =>
            match getNum rv with
            | .error e => .error e
            | .ok y => .ok (.val (.Number (F32.sub x y)) false st2)
    | .Multiply l r =>
      asBubble (evalF env n (.expr l st)) fun lv st1 =>
        match getNum lv with
        | .error e => .error e
        | .ok x =>
          asBubble (evalF env n (.expr r st1)) fun rv st2 =>
            match getNum rv with
            | .error e => .error e
            | .ok y => .ok (.val (.Number (F32.mul x y)) false st2)
    | .Divide l r =>
      asBubble (evalF env n (.expr l st)) fun lv st1 =>
        match getNum lv with
        | .error e => .error e
        | .ok x =>
          asBubble (evalF env n (.expr r st1)) fun rv st2 =>
            match getNum rv with
            | .error e => .error e
            | .ok y => .ok (.val (.Number (F32.div x y)) false st2)
    | .Access accesses => evalF env n (.access accesses .Null none st)
    | .Assignment l r =>
      match l with
      | .Literal _ => .error (.NotAssignable (exprDebug l))
      | .Derived li =>
        match li with
        | .Access accesses =>
          match evalF env n (.target accesses .initial st) with
          | .error e => .error e
          | .ok (.tgt (.bubble v st1)) => .ok (.val v true st1)
          | .ok (.tgt (.loc loc st1)) =>
            asBubble (evalF env n (.expr r st1)) fun v st2 =>
              .ok (.val v false (locWrite st2 loc v))
          | .ok _ => .error (.panicked "ill-typed evaluation result")
        | _ => .error (.NotAssignable (exprDebug l))
    | .Equality l r =>
      asBubble (evalF env n (.expr l st)) fun lv st1 =>
        asBubble (evalF env n (.expr r st1)) fun rv st2 =>
          .ok (.val (.Number (if molangEq lv rv then ⟨1, 1⟩ else ⟨0, 1⟩)) false st2)
    | .Conditional l r =>
      asBubble (evalF env n (.expr l st)) fun lv st1 =>
        match getNum lv with
        | .error e => .error e
        | .ok x =>
          match r with
          | .Derived (.Colon ifTrue ifFalse) =>
            if F32.numEq x ⟨0, 1⟩ then evalF env n (.expr ifFalse st1)
            else evalF env n (.expr ifTrue st1)
          | _ => .error (.SyntaxError "Expected colon to close terenary")
    | .Colon _ _ => .error (.SyntaxError "Unexpected colon")
    | .NullishCoalescing l r =>
      match evalF env n (.expr l st) with
      | .error e => .error e
      | .ok (.val v true st1) => .ok (.val v true st1)
      | .ok (.val .Null false st1) =>
        asBubble (evalF env n (.expr r st1)) fun v st2 => .ok (.val v false st2)
      | .ok (.val v false st1) => .ok (.val v false st1)
      | .ok _ => .error (.panicked "ill-typed evaluation result")
    | .Not e =>
      asBubble (evalF env n (.expr e st)) fun v st1 =>
        match getNum v with
        | .error er => .error er
        | .ok x =>
          if F32.numEq x ⟨0, 1⟩ then .ok (.val (.Number ⟨1, 1⟩) false st1)
          else .ok (.val (.Number ⟨0, 1⟩) false st1)
    | .Return e =>
      asBubble (evalF env n (.expr e st)) fun v st1 => .ok (.val v true st1)
  | n + 1, .access (access :: rest) current lastExt st =>
    match access, lastExt with
    | .Call args, some (eid, mname) =>
      match evalF env n (.argsJob args [] st) with
      | .error e => .error e
      | .ok (.vals (.bubble v st1)) => .ok (.val v true st1)
      | .ok (.vals (.done vargs st1)) =>
        match (heapGet st1.heap eid).callFunction mname vargs with
        | .error e => .error e
        | .ok (v, o2) =>
          evalF env n (.access rest v lastExt { st1 with heap := heapSet st1.heap eid o2 })
      | .ok _ => .error (.panicked "ill-typed evaluation result")
    | _, _ =>
      match access with
      | .Name nm =>
        match current with
        | .Null =>
          let nm2 := match getV env.aliases nm with
            | some a => a
            | none => nm
          match (getV env.constants nm2).or (getV st.vars nm2) with
          | some v => evalF env n (.access rest v none st)
          | none => .error (.VariableNotFound nm2)
        | .Struct fields =>
          evalF env n (.access rest ((getV fields nm).getD .Null) none st)
        | .External eid =>
          evalF env n (.access rest ((heapGet st.heap eid).get nm) (some (eid, nm)) st)
        | _ => .error (.BadAccess "." (valueDebugStr current))
      | .Index idx =>
        match current with
        | .External eid =>
          asBubble (evalF env n (.expr idx st)) fun v st1 =>
            match (heapGet st1.heap eid).indexGet v with
            | .error e => .error e
            | .ok w => evalF env n (.access rest w none st1)
        | _ => .error (.BadAccess "[]" (valueDebugStr current))
      | .Call args =>
        match current with
        | .Function f =>
          match evalF env n (.argsJob args [] st) with
          | .error e => .error e
          | .ok (.vals (.bubble v st1)) => .ok (.val v true st1)
          | .ok (.vals (.done vargs st1)) =>
            match env.fns f.rcId vargs with
            | .error e => .error e
            | .ok v => evalF env n (.access rest v none st1)
          | .ok _ => .error (.panicked "ill-typed evaluation result")
        | _ => .error (.BadAccess "()" (valueDebugStr current))
  | n + 1, .argsJob (e :: rest) acc st =>
    match evalF env n (.expr e st) with
    | .error er => .error er
    | .ok (.val v true st1) => .ok (.vals (.bubble v st1))
    | .ok (.val v false st1) => evalF env n (.argsJob rest (acc ++ [v]) st1)
    | .ok _ => .error (.panicked "ill-typed evaluation result")
  | n + 1, .target (access :: rest) loc st =>
    match access with
    | .Name nm =>
      match locRead st loc with
      | .Null =>
        let nm2 := match getV env.aliases nm with
          | some a => a
          | none => nm
        match getV st.vars nm2 with
        | some _ => evalF env n (.target rest (.var nm2 []) st)
        | none =>
          if (getV env.constants nm2).isSome then
            .error (.NotAssignable ("Constant " ++ nm2))
          else .error (.VariableNotFound nm2)
      | .Struct fields =>
        match getV fields nm with
        | some _ => evalF env n (.target rest (locExtend loc nm) st)
        | none =>
          let stored := locStore st loc (.Struct (insertV fields nm (.Struct [])))
          evalF env n (.target rest (locExtend stored.2 nm) stored.1)
      | .External eid =>
        evalF env n (.target rest (.temp ((heapGet st.heap eid).get nm) []) st)
      | _ => .error (.BadAccess "." "<ptr>")
    | .Index idx =>
      match locRead st loc with
      | .External eid =>
        match evalF env n (.expr idx st) with
        | .error e => .error e
        | .ok (.val v true st1) => .ok (.tgt (.bubble v st1))
        | .ok (.val v false st1) =>
          match (heapGet st1.heap eid).indexGet v with
          | .error e => .error e
          | .ok w => evalF env n (.target rest (.temp w []) st1)
        | .ok _ => .error (.panicked "ill-typed evaluation result")
      | _ => .error (.BadAccess "[]" "<ptr>")
    | .Call _ => .error (.NotAssignable (accessDebug access))

/-- interpreter.rs run_expr: the expression job of the evaluator. -/
def runExpr (env : Env) (fuel : Nat) (e : Expr) (st : St) :
    Except MolangError (Value × Bool × St) :=
  match evalF env fuel (.expr e st) with
  | .error er => .error er
  | .ok (.val v ret st2) => .ok (v, ret, st2)
  | .ok _ => .error (.panicked "ill-typed evaluation result")

/-- The assignment target walk of interpreter.rs (lines 214-278) as a
stand-alone function: the target job of the evaluator. -/
def resolveGo (env : Env) (fuel : Nat) (accesses : List AccessExpr)
    (loc : Loc) (st : St) : Except MolangError LocOut :=
  match evalF env fuel (.target accesses loc st) with
  | .error er => .error er
  | .ok (.tgt o) => .ok o
  | .ok _ => .error (.panicked "ill-typed evaluation result")

/-- interpreter.rs run_block, multiple branch: statements run in order;
the first result carrying the early-return flag is the block result;
fall-through yields Number(0.0). -/
def runStmts (env : Env) (fuel : Nat) :
    List Expr → St → Except MolangError (Value × St)
  | [], st => .ok (.Number ⟨0, 1⟩, st)
  | s :: rest, st =>
    match runExpr env fuel s st with
    | .error e => .error e
    | .ok (v, true, st1) => .ok (v, st1)
    | .ok (_, false, st1) => runStmts env fuel rest st1

/-- interpreter.rs run_block: a multiple block runs its statement list;
a not-multiple block evaluates statements[0] (a panic on an empty
statement list, modelled by the panicked error). -/
def runBlock (env : Env) (fuel : Nat) (b : Block) (st : St) :
    Except MolangError (Value × St) :=
  if b.multiple then runStmts env fuel b.statements st
  else
    match b.statements with
    | [] => .error (.panicked "index out of bounds")
    | s :: _ =>
      match runExpr env fuel s st with
      | .error e => .error e
      | .ok (v, _, st1) => .ok (v, st1)

/-- Host-callable table of an environment with no host functions. -/
def defaultFns : Nat → List Value → Except MolangError Value :=
  fun _ _ => .error (.FunctionError "no host function")

/-- lib.rs run (run_block re-export), on an environment without host
callables or externals. -/
def run (fuel : Nat) (b : Block) (constants : List (StrKey × Value))
    (vars : List (StrKey × Value)) (aliases : List (StrKey × StrKey)) :
    Except MolangError Value :=
  match runBlock ⟨constants, aliases, defaultFns⟩ fuel b ⟨vars, []⟩ with
  | .error e => .error e
  | .ok (v, _) => .ok v

/-- The alias substitution applied when resolving the root name of an
access chain: a single lookup in the alias table. -/
def aliasSub (env : Env) (nm : String) : String :=
  match getV env.aliases nm with
  | some a => a
  | none => nm

/-- A token that cannot displace a held candidate of precedence
bop.precidence during the treeify scan: any non-bracket token whose
operator precedence (if any) is not strictly lower. -/
def tokKeeps (bop : Operator) : Token → Bool
  | .Operator o => decide (bop.precidence ≤ o.precidence)
  | .OpenBracket => false
  | .CloseBracket => false
  | _ => true

/-- Inversion of the runExpr wrapper: a successful run came from a
val-shaped evaluator result. -/
lemma runExpr_ok_inv (env : Env) (n : Nat) (e : Expr) (st : St)
    (v : Value) (ret : Bool) (st1 : St)
    (h : runExpr env n e st = .ok (v, ret, st1)) :
    evalF env n (.expr e st) = .ok (.val v ret st1) := by
  rcases heval : evalF env n (.expr e st) with er | o
  · simp [runExpr, heval] at h
  · cases o with
    | val w fl st2 =>
      simp [runExpr, heval] at h
      obtain ⟨rfl, rfl, rfl⟩ := h
      rfl
    | vals o => simp [runExpr, heval] at h
    | tgt o => simp [runExpr, heval] at h

/-- A held scan candidate of minimal precedence is never displaced by a
later depth-zero operator of equal or higher precedence (the tie test
in parser.rs line 50 is strict). -/
lemma scanOps_keeps (rest : List Token) : ∀ (i j : Nat) (bop : Operator),
    (∀ t ∈ rest, tokKeeps bop t = true) →
    scanOps rest i 0 (some (j, bop)) = some (j, bop) := by
  induction rest with
  | nil => intro i j bop _; rfl
  | cons t ts ih =>
    intro i j bop h
    have ht := h t (List.mem_cons_self t ts)
    have hts : ∀ u ∈ ts, tokKeeps bop u = true := fun u hu => h u (List.mem_cons_of_mem t hu)
    cases t with
    | Operator o =>
      simp [tokKeeps] at ht
      have hnlt : ¬ (bop.precidence > o.precidence) := by omega
      simp [scanOps, hnlt]
      exact ih (i + 1) j bop hts
    | OpenBracket => simp [tokKeeps] at ht
    | CloseBracket => simp [tokKeeps] at ht
    | Number x => simpa [scanOps] using ih (i + 1) j bop hts
    | Access a => simpa [scanOps] using ih (i + 1) j bop hts
    | Comma => simpa [scanOps] using ih (i + 1) j bop hts
    | Semicolon => simpa [scanOps] using ih (i + 1) j bop hts
    | Block b => simpa [scanOps] using ih (i + 1) j bop hts

/-- The blockiser statement loop parses exactly one expression per
segment. -/
lemma treeifySegs_length (segs : List (List Token)) (es : List Expr)
    (h : treeifySegs segs = .ok es) : es.length = segs.length := by
  induction segs generalizing es with
  | nil => simp [treeifySegs] at h; simp [← h]
  | cons s rest ih =>
    simp only [treeifySegs] at h
    rcases h1 : treeify s with e1 | e1 <;> rw [h1] at h
    · cases h
    · rcases h2 : treeifySegs rest with e2 | e2 <;> rw [h2] at h
      · cases h
      · cases h
        simp [ih e2 h2]

/-- The whitespace characters of the lexer dispatch. -/
lemma ws_char_cases (c : Char) (h : c.isWhitespace = true) :
    c = ' ' ∨ c = '\t' ∨ c = '\r' ∨ c = '\n' := by
  simp [Char.isWhitespace] at h
  tauto

/-- The lexer loop consumes whitespace-only input without emitting a
token. -/
lemma tokLoop_ws (cs : List Char) : ∀ (n : Nat), cs.length < n →
    (∀ c ∈ cs, c.isWhitespace = true) → tokLoop n .NormalState cs = .ok [] := by
  induction cs with
  | nil =>
    intro n hn _
    match n, hn with
    | m + 1, _ => rfl
  | cons c cs ih =>
    intro n hn hws
    match n, hn with
    | m + 1, hn =>
      have hm : cs.length < m := by simp at hn; omega
      have hcs : ∀ u ∈ cs, u.isWhitespace = true := fun u hu => hws u (List.mem_cons_of_mem c hu)
      have ihm := ih m hm hcs
      rcases ws_char_cases c (hws c (List.mem_cons_self c cs)) with rfl | rfl | rfl | rfl <;>
      · change (match tokLoop m LexState.NormalState cs with
            | .error e => .error e
            | .ok rest => .ok rest : Except TokeniseError (List Token)) = .ok []
        rw [ihm]

/-- C1 counterexample: with the name x bound to 1 in constants and to 2
in variables, the Access read resolves to the constants binding, so the
claim that the variables map is consulted first is false on this
input. -/
theorem c1_counterexample :
    runExpr ⟨[("x", .Number ⟨1, 1⟩)], [], defaultFns⟩ 9
        (.Derived (.Access [.Name "x"])) ⟨[("x", .Number ⟨2, 1⟩)], []⟩
      = .ok (.Number ⟨1, 1⟩, false, ⟨[("x", .Number ⟨2, 1⟩)], []⟩) ∧
    (⟨1, 1⟩ : F32) ≠ ⟨2, 1⟩ :=
  ⟨rfl, by decide⟩

/-- C1 (amended): resolving the root Name of an access chain while the
current value is Null looks the alias-substituted name up in the
constants map first, falls back to the variables map, and raises
VariableNotFound exactly when the name is absent from both; when a name
is bound in both maps the constants binding wins. -/
theorem c1_amended (n : Nat) (nm : String) (env : Env) (st : St) (v : Value) :
    (getV env.constants (aliasSub env nm) = some v →
      runExpr env (n + 2) (.Derived (.Access [.Name nm])) st = .ok (v, false, st)) ∧
    (getV env.constants (aliasSub env nm) = none →
      getV st.vars (aliasSub env nm) = some v →
      runExpr env (n + 2) (.Derived (.Access [.Name nm])) st = .ok (v, false, st)) ∧
    (getV env.constants (aliasSub env nm) = none →
      getV st.vars (aliasSub env nm) = none →
      runExpr env (n + 2) (.Derived (.Access [.Name nm])) st =
        .error (.VariableNotFound (aliasSub env nm))) := by
  refine ⟨fun hc => ?_, fun hc hv => ?_, fun hc hv => ?_⟩ <;>
    simp [runExpr, evalF, aliasSub] at * <;>
    simp [hc, Option.or] <;>
    simp [hv]

/-- C1 witness: the constants binding of c is returned. -/
theorem c1_amended_witness :
    runExpr ⟨[("c", .Number ⟨1, 1⟩)], [], defaultFns⟩ 2
      (.Derived (.Access [.Name "c"])) ⟨[], []⟩ = .ok (.Number ⟨1, 1⟩, false, ⟨[], []⟩) :=
  (c1_amended 0 "c" ⟨[("c", .Number ⟨1, 1⟩)], [], defaultFns⟩ ⟨[], []⟩
    (.Number ⟨1, 1⟩)).1 rfl

/-- C2 counterexample: assigning to the unbound name x from a right side
that itself fails with a TypeError returns VariableNotFound, showing
that the target chain is resolved before the right side is evaluated,
contrary to the claim. -/
theorem c2_counterexample :
    runExpr ⟨[], [], defaultFns⟩ 9
        (.Derived (.Assignment (.Derived (.Access [.Name "x"]))
          (.Derived (.Not (.Literal (.String "s")))))) ⟨[], []⟩
      = .error (.VariableNotFound "x") ∧
    runExpr ⟨[], [], defaultFns⟩ 9
        (.Derived (.Not (.Literal (.String "s")))) ⟨[], []⟩
      = .error (.TypeError "Number" "String(\"s\")") ∧
    MolangError.VariableNotFound "x" ≠ .TypeError "Number" "String(\"s\")" :=
  ⟨rfl, rfl, by decide⟩

/-- C2 (amended): for an assignment whose left side is an Access
instruction, the target location is resolved first; if the target walk
fails, its error is returned and the right-hand side is never evaluated
(the result does not depend on the right-hand side). -/
theorem c2_amended (env : Env) (n : Nat) (accesses : List AccessExpr)
    (st : St) (e : MolangError) (rhs : Expr)
    (h : resolveGo env n accesses .initial st = .error e) :
    runExpr env (n + 1)
      (.Derived (.Assignment (.Derived (.Access accesses)) rhs)) st = .error e := by
  rcases heval : evalF env n (.target accesses .initial st) with er | o
  · simp [resolveGo, heval] at h
    simp [runExpr, evalF, heval, h]
  · cases o <;> simp [resolveGo, heval] at h <;>
      simp [runExpr, evalF, heval, h.symm]

/-- C2 witness: the unbound target name x makes the assignment fail
with VariableNotFound for an arbitrary right side. -/
theorem c2_amended_witness :
    runExpr ⟨[], [], defaultFns⟩ 2
      (.Derived (.Assignment (.Derived (.Access [.Name "x"])) (.Literal .Null)))
      ⟨[], []⟩ = .error (.VariableNotFound "x") :=
  c2_amended ⟨[], [], defaultFns⟩ 1 [.Name "x"] ⟨[], []⟩
    (.VariableNotFound "x") (.Literal .Null) rfl

/-- C3: assigning through an External property writes into the detached
temporary returned by the property getter, so External::set is never
invoked: the assignment e.p = 5 succeeds, the state (variables and
external heap) is unchanged, and a subsequent read of e.p still yields
the old value 1, not 5 — while the object's set capability, had it been
called, would have stored 5. -/
theorem c3_set_never_called :
    runExpr ⟨[], [], defaultFns⟩ 9
        (.Derived (.Assignment (.Derived (.Access [.Name "e", .Name "p"]))
          (.Literal (.Number ⟨5, 1⟩))))
        ⟨[("e", .External 0)], [⟨[("p", .Number ⟨1, 1⟩)], []⟩]⟩
      = .ok (.Number ⟨5, 1⟩, false, ⟨[("e", .External 0)], [⟨[("p", .Number ⟨1, 1⟩)], []⟩]⟩) ∧
    runExpr ⟨[], [], defaultFns⟩ 9 (.Derived (.Access [.Name "e", .Name "p"]))
        ⟨[("e", .External 0)], [⟨[("p", .Number ⟨1, 1⟩)], []⟩]⟩
      = .ok (.Number ⟨1, 1⟩, false, ⟨[("e", .External 0)], [⟨[("p", .Number ⟨1, 1⟩)], []⟩]⟩) ∧
    (⟨1, 1⟩ : F32) ≠ ⟨5, 1⟩ ∧
    ExtObj.set ⟨[("p", .Number ⟨1, 1⟩)], []⟩ "p" (.Number ⟨5, 1⟩)
      = .ok ⟨[("p", .Number ⟨5, 1⟩)], []⟩ :=
  ⟨rfl, rfl, by decide, rfl⟩

/-- C4: a multiple block runs its statements in order; the first result
carrying the early-return flag is the block's value and the remaining
statements are never evaluated (the result does not depend on them); a
block that falls through evaluates to Number(0.0).  Concretely,
compiling and running the source 1; 2; yields Number(0.0) and
1; return 5; yields Number(5.0). -/
theorem c4_block_semantics :
    (∀ (env : Env) (n : Nat) (s : Expr) (rest : List Expr) (st st1 : St) (v : Value),
      runExpr env n s st = .ok (v, true, st1) →
      runStmts env n (s :: rest) st = .ok (v, st1)) ∧
    (∀ (env : Env) (n : Nat) (s : Expr) (rest : List Expr) (st st1 : St) (v : Value),
      runExpr env n s st = .ok (v, false, st1) →
      runStmts env n (s :: rest) st = runStmts env n rest st1) ∧
    (∀ (env : Env) (n : Nat) (st : St),
      runStmts env n ([] : List Expr) st = .ok (.Number ⟨0, 1⟩, st)) ∧
    compile "1; 2;" = .ok ⟨true, [.Literal (.Number ⟨1, 1⟩), .Literal (.Number ⟨2, 1⟩)]⟩ ∧
    run 9 ⟨true, [.Literal (.Number ⟨1, 1⟩), .Literal (.Number ⟨2, 1⟩)]⟩ [] [] []
      = .ok (.Number ⟨0, 1⟩) ∧
    compile "1; return 5;"
      = .ok ⟨true, [.Literal (.Number ⟨1, 1⟩), .Derived (.Return (.Literal (.Number ⟨5, 1⟩)))]⟩ ∧
    run 9 ⟨true, [.Literal (.Number ⟨1, 1⟩), .Derived (.Return (.Literal (.Number ⟨5, 1⟩)))]⟩
      [] [] [] = .ok (.Number ⟨5, 1⟩) := by
  refine ⟨fun env n s rest st st1 v h => ?_, fun env n s rest st st1 v h => ?_,
    fun env n st => rfl, rfl, rfl, rfl, rfl⟩ <;> simp [runStmts, h]

/-- C4 witness: a statement returning early ends the block with its
value, with a further statement pending. -/
theorem c4_block_semantics_witness :
    runStmts ⟨[], [], defaultFns⟩ 1
      [.Derived (.Return (.Literal (.Number ⟨5, 1⟩))), .Literal .Null] ⟨[], []⟩
      = .ok (.Number ⟨5, 1⟩, ⟨[], []⟩) :=
  c4_block_semantics.1 ⟨[], [], defaultFns⟩ 1
    (.Derived (.Return (.Literal (.Number ⟨5, 1⟩)))) [.Literal .Null]
    ⟨[], []⟩ ⟨[], []⟩ (.Number ⟨5, 1⟩) rfl

/-- C5: the treeify scan never replaces a held lowest-precedence
operator with a later depth-zero operator of equal (or higher)
precedence, so the split lands on the leftmost of the minimal-precedence
operators and same-precedence binary operators group rightward:
8 - 3 - 2 parses as 8 - (3 - 2) and evaluates to Number(7.0). -/
theorem c5_leftmost_split :
    (∀ (rest : List Token) (i j : Nat) (bop : Operator),
      (∀ t ∈ rest, tokKeeps bop t = true) →
      scanOps rest i 0 (some (j, bop)) = some (j, bop)) ∧
    compile "8 - 3 - 2"
      = .ok ⟨false, [.Derived (.Subtract (.Literal (.Number ⟨8, 1⟩))
          (.Derived (.Subtract (.Literal (.Number ⟨3, 1⟩)) (.Literal (.Number ⟨2, 1⟩)))))]⟩ ∧
    run 9 ⟨false, [.Derived (.Subtract (.Literal (.Number ⟨8, 1⟩))
        (.Derived (.Subtract (.Literal (.Number ⟨3, 1⟩)) (.Literal (.Number ⟨2, 1⟩)))))]⟩
      [] [] [] = .ok (.Number ⟨7, 1⟩) :=
  ⟨fun rest i j bop h => scanOps_keeps rest i j bop h, rfl, rfl⟩

/-- C5 witness: the held first Subtract survives the scan over the
remainder of 8 - 3 - 2, which contains the second same-precedence
Subtract. -/
theorem c5_leftmost_split_witness :
    scanOps [Token.Number ⟨3, 1⟩, .Operator .Subtract, .Number ⟨2, 1⟩] 2 0
      (some (1, .Subtract)) = some (1, .Subtract) :=
  c5_leftmost_split.1 [Token.Number ⟨3, 1⟩, .Operator .Subtract, .Number ⟨2, 1⟩]
    2 1 .Subtract (by decide)

/-- C6: nullish coalescing short-circuits: when the primary evaluates
to a non-Null value the result is that value and the fallback is never
evaluated (the result does not depend on the fallback expression); when
the primary evaluates to Null the whole expression behaves exactly like
the fallback. -/
theorem c6_nullish_short_circuit (env : Env) (n : Nat) (a : Expr) (st st1 : St) :
    (∀ (v : Value) (b : Expr), runExpr env n a st = .ok (v, false, st1) → v ≠ .Null →
      runExpr env (n + 1) (.Derived (.NullishCoalescing a b)) st = .ok (v, false, st1)) ∧
    (∀ (b : Expr), runExpr env n a st = .ok (.Null, false, st1) →
      runExpr env (n + 1) (.Derived (.NullishCoalescing a b)) st = runExpr env n b st1) := by
  constructor
  · intro v b h hv
    have heval := runExpr_ok_inv env n a st v false st1 h
    cases v <;> first
      | exact absurd rfl hv
      | simp [runExpr, evalF, heval]
  · intro b h
    have heval := runExpr_ok_inv env n a st .Null false st1 h
    rcases hb : evalF env n (.expr b st1) with er2 | o2
    · simp [runExpr, evalF, heval, asBubble, hb]
    · cases o2 with
      | val w2 fl2 st3 => cases fl2 <;> simp [runExpr, evalF, heval, asBubble, hb]
      | vals o2 => simp [runExpr, evalF, heval, asBubble, hb]
      | tgt o2 => simp [runExpr, evalF, heval, asBubble, hb]

/-- C6 witness: 3 ?? 9 yields 3 and Null ?? 9 behaves like 9. -/
theorem c6_nullish_short_circuit_witness :
    runExpr ⟨[], [], defaultFns⟩ 1
      (.Derived (.NullishCoalescing (.Literal (.Number ⟨3, 1⟩))
        (.Literal (.Number ⟨9, 1⟩)))) ⟨[], []⟩
      = .ok (.Number ⟨3, 1⟩, false, ⟨[], []⟩) ∧
    runExpr ⟨[], [], defaultFns⟩ 1
      (.Derived (.NullishCoalescing (.Literal .Null)
        (.Literal (.Number ⟨9, 1⟩)))) ⟨[], []⟩
      = runExpr ⟨[], [], defaultFns⟩ 0 (.Literal (.Number ⟨9, 1⟩)) ⟨[], []⟩ :=
  ⟨(c6_nullish_short_circuit ⟨[], [], defaultFns⟩ 0 (.Literal (.Number ⟨3, 1⟩))
      ⟨[], []⟩ ⟨[], []⟩).1 (.Number ⟨3, 1⟩) (.Literal (.Number ⟨9, 1⟩)) rfl
      (fun h => Value.noConfusion h),
    (c6_nullish_short_circuit ⟨[], [], defaultFns⟩ 0 (.Literal .Null)
      ⟨[], []⟩ ⟨[], []⟩).2 (.Literal (.Number ⟨9, 1⟩)) rfl⟩

/-- C7 counterexample: the source !(-5) does not compile: the right
slice of the inner Subtract is parsed with an empty left slice, and the
empty slice is an IncompleteExpression error (unary minus is not
supported), so the claim that !(-5) compiles successfully is false. -/
theorem c7_counterexample :
    compile "!(-5)" = .error CompileError.IncompleteExpression := rfl

/-- C7 (amended): logical not on a Number operand yields Number(1.0)
exactly when the operand equals 0.0 and Number(0.0) otherwise; !0
compiles and evaluates to Number(1.0), !1 compiles and evaluates to
Number(0.0), but !(-5) fails to compile with IncompleteExpression. -/
theorem c7_amended :
    (∀ (env : Env) (n : Nat) (e : Expr) (st st1 : St) (x : F32),
      runExpr env n e st = .ok (.Number x, false, st1) →
      runExpr env (n + 1) (.Derived (.Not e)) st =
        .ok (.Number (if F32.numEq x ⟨0, 1⟩ then ⟨1, 1⟩ else ⟨0, 1⟩), false, st1)) ∧
    compile "!0" = .ok ⟨false, [.Derived (.Not (.Literal (.Number ⟨0, 1⟩)))]⟩ ∧
    run 9 ⟨false, [.Derived (.Not (.Literal (.Number ⟨0, 1⟩)))]⟩ [] [] []
      = .ok (.Number ⟨1, 1⟩) ∧
    compile "!1" = .ok ⟨false, [.Derived (.Not (.Literal (.Number ⟨1, 1⟩)))]⟩ ∧
    run 9 ⟨false, [.Derived (.Not (.Literal (.Number ⟨1, 1⟩)))]⟩ [] [] []
      = .ok (.Number ⟨0, 1⟩) ∧
    compile "!(-5)" = .error .IncompleteExpression := by
  refine ⟨fun env n e st st1 x h => ?_, rfl, rfl, rfl, rfl, rfl⟩
  have heval := runExpr_ok_inv env n e st (.Number x) false st1 h
  by_cases hz : F32.numEq x ⟨0, 1⟩ = true <;>
    simp [runExpr, evalF, heval, asBubble, getNum, hz]

/-- C7 witness: not applied to the nonzero number 2 yields 0. -/
theorem c7_amended_witness :
    runExpr ⟨[], [], defaultFns⟩ 1
      (.Derived (.Not (.Literal (.Number ⟨2, 1⟩)))) ⟨[], []⟩
      = .ok (.Number ⟨0, 1⟩, false, ⟨[], []⟩) := by
  simpa [F32.numEq] using
    c7_amended.1 ⟨[], [], defaultFns⟩ 0 (.Literal (.Number ⟨2, 1⟩))
      ⟨[], []⟩ ⟨[], []⟩ ⟨2, 1⟩ rfl

/-- C8: PartialEq for Function compares the addresses of the Function
wrapper structs, so a clone of a Function value — which shares the
underlying callable (same rcId) but lives at a fresh address — compares
unequal to the original, contradicting reference identity of the shared
callable; Functions over distinct callables are unequal as well. -/
theorem c8_function_eq_wrapper_address :
    functionEq ⟨0, 7⟩ (cloneFunction ⟨0, 7⟩ 1) = false ∧
    (cloneFunction ⟨0, 7⟩ 1).rcId = (⟨0, 7⟩ : Function).rcId ∧
    molangEq (.Function ⟨0, 7⟩) (.Function (cloneFunction ⟨0, 7⟩ 1)) = false ∧
    molangEq (.Function ⟨0, 7⟩) (.Function ⟨1, 9⟩) = false :=
  ⟨rfl, rfl, rfl, rfl⟩

/-- C9: every Block a successful blockise produces holds at least one
statement, so run_block's unchecked access to statements[0] in the
not-multiple case is in bounds; an empty statement slice — produced for
instance by a leading or doubled separator — fails compilation with
IncompleteExpression instead. -/
theorem c9_theorem :
    (∀ (tokens : List Token) (b : Block),
      blockise tokens = .ok b → 0 < b.statements.length) ∧
    compile ";1" = .error .IncompleteExpression ∧
    compile "1;;2" = .error .IncompleteExpression := by
  refine ⟨fun tokens b h => ?_, rfl, rfl⟩
  simp only [blockise] at h
  rcases h1 : treeifySegs (splitSemiGo [] tokens).1 with e1 | stmts0 <;> rw [h1] at h
  · cases h
  · have hlen := treeifySegs_length _ _ h1
    rcases hemp : (splitSemiGo [] tokens).2.isEmpty with _ | _
    · simp only [hemp, Bool.false_eq_true, if_false] at h
      rcases h2 : treeify (splitSemiGo [] tokens).2 with e2 | e2 <;> rw [h2] at h
      · cases h
      · by_cases hm : ((splitSemiGo [] tokens).1).isEmpty
        · simp only [hm] at h
          rcases h3 : treeify tokens with e3 | e3 <;> rw [h3] at h
          · cases h
          · cases h; simp
        · simp only [hm] at h
          simp at h
          cases h; simp
    · simp only [hemp, if_true] at h
      by_cases hm : ((splitSemiGo [] tokens).1).isEmpty
      · simp only [hm] at h
        rcases h3 : treeify tokens with e3 | e3 <;> rw [h3] at h
        · cases h
        · cases h; simp
      · simp only [hm] at h
        simp at h
        cases h
        have hne : (splitSemiGo [] tokens).1 ≠ [] := by
          intro hcon; rw [hcon] at hm; simp at hm
        have hpos : 0 < (splitSemiGo [] tokens).1.length := List.length_pos.mpr hne
        simp
        omega

/-- C9 witness: a one-token program yields a one-statement block. -/
theorem c9_theorem_witness :
    0 < (Block.mk false [.Literal (.Number ⟨1, 1⟩)]).statements.length :=
  c9_theorem.1 [Token.Number ⟨1, 1⟩] ⟨false, [.Literal (.Number ⟨1, 1⟩)]⟩ rfl

/-- C10: compiling the empty source fails with IncompleteExpression
(the token sequence is empty and parsing an empty token slice is an
IncompleteExpression error), and so does compiling any whitespace-only
source. -/
theorem c10_theorem :
    compile "" = .error .IncompleteExpression ∧
    tokenise "" = .ok [] ∧
    treeify [] = .error .IncompleteExpression ∧
    (∀ s : String, (∀ c ∈ s.toList, c.isWhitespace = true) →
      compile s = .error .IncompleteExpression) := by
  refine ⟨rfl, rfl, rfl, fun s hws => ?_⟩
  have hfuel : s.toList.length < tokenFuel s := by
    have h1 : s.toList.length = s.length := rfl
    have h2 : s.length + 2 ≤ 16 * (s.length + 2) * (s.length + 2) := by
      calc s.length + 2 = 1 * (s.length + 2) := (one_mul _).symm
      _ ≤ (16 * (s.length + 2)) * (s.length + 2) :=
        Nat.mul_le_mul_right _ (by omega)
    simp only [tokenFuel]
    omega
  have htok : tokenise s = .ok [] :=
    tokLoop_ws s.toList (tokenFuel s) hfuel hws
  simp [compile, htok]
  rfl

/-- C10 witness: a two-space source fails with IncompleteExpression. -/
theorem c10_theorem_witness :
    compile "  " = .error .IncompleteExpression :=
  c10_theorem.2.2.2 "  " (by decide)
